import Mathlib

/-!
Shallow embedding of the uLCD-43 host-side protocol/transport layer
(`src/util.c` of libulcd43) and proofs about it.

The C code is translated function by function.  Machine integers are
modelled as `Nat`/`Int` with explicit wrap-around (`% 2^64` for `size_t`,
`% 2^32` for 32-bit `int` bit patterns, `% 256` for `char` storage).
`char` is signed on the reference platform, so a stored byte pattern
`c < 256` reads back as the value `c` when `c < 128` and `c - 256`
otherwise.  The serial transport is modelled by explicit oracles: a list
of results for successive `write` calls and a list of results (return
value plus delivered bytes) for successive `read` calls.  A function
that would loop forever in C (its oracle is exhausted while the loop
still runs) returns `none`.
-/

/-- Modelled from the spec: the protocol ACK byte `0x06`.  The header
`ulcd43.h` defining the constant is not under `src/`. -/
def ACK : Int := 0x06

/-- Modelled from the spec: the protocol NAK byte `0x15`.  The header
`ulcd43.h` defining the constant is not under `src/`. -/
def NAK : Int := 0x15

/-- Modelled from the spec: the success code `OK`.  The code treats any
nonzero return as failure, so `ERROK` must be `0`. -/
def ERROK : Int := 0

/-- Modelled from the spec: the `ERR_OPEN` code of the closed error
taxonomy; its numeric value is not under `src/`, it is only required to
be a distinct nonzero code. -/
def ERROPEN : Int := 1

/-- Modelled from the spec: the `ERR_IO` code of the closed error
taxonomy; its numeric value is not under `src/`. -/
def ERRIO : Int := 2

/-- Modelled from the spec: the `ERR_NAK` code of the closed error
taxonomy; its numeric value is not under `src/`. -/
def ERRNAK : Int := 3

/-- Modelled from the spec: the `ERR_UNKNOWN` code of the closed error
taxonomy; its numeric value is not under `src/`. -/
def ERRUNKNOWN : Int := 4

/-- Modelled from the spec: the bound of the handle's error-message
buffer (`char err[STRBUFSIZE]`); the header giving the exact bound is
not under `src/`, only boundedness matters. -/
def STRBUFSIZE : Nat := 256

/-- Modelled from the spec: the Device Handle `struct ulcd_t` (declared
in the header, which is not under `src/`): transport descriptor, device
path, baud-rate selector, last error code and last error message. -/
structure Ulcd where
  fd : Int
  device : String
  baudrate : Int
  error : Int
  err : String
  deriving Repr, DecidableEq

/-- `ulcd_new`: allocate a handle, zero it, set `fd = -1`. -/
def ulcd_new : Ulcd :=
  { fd := -1, device := "", baudrate := 0, error := 0, err := "" }

/-- `vsnprintf(dst, STRBUFSIZE, fmt, ...)` stores at most
`STRBUFSIZE - 1` characters of the formatted message. -/
def vsnprintf_model (s : String) : String :=
  s.take (STRBUFSIZE - 1)

/-- `ulcd_error`: record an error code and message on the handle and
return the code.  A `NULL` format string (`none`) empties the message;
otherwise the already-formatted message is stored truncated by
`vsnprintf`.  Returns the new handle together with the C return value. -/
def ulcd_error (ulcd : Ulcd) (error : Int) (err : Option String) : Ulcd × Int :=
  ({ ulcd with
      error := error,
      err := match err with
        | none => ""
        | some s => vsnprintf_model s },
    error)

/-- Wrap of `size_t` (64-bit unsigned) arithmetic. -/
def sizeTMod : Nat := 18446744073709551616

/-- Storing a C `ssize_t` result into a `size_t` variable keeps its
two's-complement bit pattern: the value modulo `2 ^ 64`. -/
def intToSizeT (i : Int) : Nat :=
  (i % (18446744073709551616 : Int)).toNat

/-- Promotion of a (signed) `char` holding bit pattern `c < 256` to a
32-bit `int`, viewed as the 32-bit bit pattern (sign extension). -/
def ulcd_char_to_int (c : Nat) : Nat :=
  if c < 128 then c else 4294967296 - 256 + c

/-- Value of a (signed) `char` holding bit pattern `c < 256`, as a
mathematical integer (used for comparisons against `ACK`/`NAK`). -/
def charVal (c : Nat) : Int :=
  if c < 128 then (c : Int) else (c : Int) - 256

/-- `pack_uint`: `dest[0] = (src & 0xff00) >> 8; dest[1] = src & 0x00ff;
return 2;` — the two stored `char` bit patterns plus the return value. -/
def pack_uint (src : Nat) : List Nat × Int :=
  ([((src &&& 0xff00) >>> 8) % 256, (src &&& 0x00ff) % 256], 2)

/-- `unpack_uint`: `*dest = ((src[0] << 8) & 0xff00) | (src[1] & 0x00ff);`
with `src` a `char` buffer.  Each `char` is promoted (sign-extended) to a
32-bit `int`, shifted/masked there, and the result is stored into the
16-bit unsigned `param_t` (modelled from the spec: Parameter is a 16-bit
unsigned quantity; `param_t` itself is declared in the header, which is
not under `src/`). -/
def unpack_uint (src : List Nat) : Nat :=
  ((((ulcd_char_to_int (src.getD 0 0)) <<< 8) % 4294967296 &&& 0xff00) |||
    ((ulcd_char_to_int (src.getD 1 0)) &&& 0x00ff)) % 65536

/-- Loop body of `pack_uints`: pack each parameter in order, advancing
the destination pointer by 2 after each one. -/
def pack_uints_go : List Nat → List Nat
  | [] => []
  | p :: rest => (pack_uint p).1 ++ pack_uints_go rest

/-- `pack_uints`: pack an ordered sequence of parameters into the buffer
and return `args * 2`. -/
def pack_uints (ps : List Nat) : List Nat × Int :=
  (pack_uints_go ps, 2 * (ps.length : Int))

/-- Result of one `write` call on the transport: the `ssize_t` return
value and the value `errno` holds afterwards. -/
structure WriteRet where
  ret : Int
  errno : Int
  deriving Repr, DecidableEq

/-- Result of one `read` call on the transport: the `ssize_t` return
value, the value `errno` holds afterwards, and the bytes the call
stored into the destination buffer (their `char` bit patterns). -/
structure ReadEv where
  ret : Int
  errno : Int
  bytes : List Nat
  deriving Repr, DecidableEq

/-- Model of `strerror`: some human-readable text for an OS error
number; the claims never inspect its content. -/
def strerror (e : Int) : String :=
  "system error " ++ toString e

/-- `ulcd_open_serial_device`: `open(ulcd->device, O_RDWR | O_NOCTTY)`
stores the descriptor in `ulcd->fd`; `-1` means failure and the
function returns `ulcd_error(ulcd, errno, ...)`; otherwise the control
flags are cleared (no modelled effect) and `ERROK` is returned.
`openRet` and `errnoV` are the OS oracle for this call. -/
def ulcd_open_serial_device (ulcd : Ulcd) (openRet : Int) (errnoV : Int) : Ulcd × Int :=
  let u1 : Ulcd := { ulcd with fd := openRet }
  if u1.fd = -1 then
    ulcd_error u1 errnoV (some ("Unable to open serial device: " ++ strerror errnoV))
  else
    (u1, ERROK)

/-- The `while (total < size)` loop of `ulcd_send`.  `total` and `sent`
are `size_t` variables; each iteration consumes the next `write` result
from the oracle.  The comparison `sent < 0` is between `size_t` values,
exactly as in the source.  An exhausted oracle while the loop still
runs models a non-terminating run and yields `none`. -/
def sendLoop : List WriteRet → Nat → Nat → Ulcd → Option (Ulcd × Int)
  | wr, size, total, ulcd =>
    if total < size then
      match wr with
      | [] => none
      | w :: rest =>
        let sent : Nat := intToSizeT w.ret
        if sent < 0 then
          some (ulcd_error ulcd w.errno
            (some ("Unable to send data to device: " ++ strerror w.errno)))
        else
          sendLoop rest size ((total + sent) % sizeTMod) ulcd
    else
      some (ulcd, ERROK)

/-- `ulcd_send`: write the whole buffer, accumulating the per-call
transfer counts.  The buffer contents do not influence control flow. -/
def ulcd_send (ulcd : Ulcd) (data : List Nat) (size : Nat) (wr : List WriteRet) :
    Option (Ulcd × Int) :=
  sendLoop wr size 0 ulcd

/-- `ulcd_recv_ack`: `read(fd, &r, 1)` into a local `char r`, the return
value stored into `bytes_read` and never examined.  `g` is the bit
pattern the uninitialized `r` happens to hold when the read delivers no
byte.  The reply byte is then compared (as a signed `char` promoted to
`int`) against `ACK` and `NAK`. -/
def ulcd_recv_ack (ulcd : Ulcd) (rds : List ReadEv) (g : Nat) :
    Option (Ulcd × Int × List ReadEv) :=
  match rds with
  | [] => none
  | ev :: rest =>
    let r : Nat := (ev.bytes.headD g) % 256
    if charVal r = ACK then some (ulcd, ERROK, rest)
    else if charVal r = NAK then
      let e := ulcd_error ulcd ERRNAK (some ("Device sent NAK instead of ACK"))
      some (e.1, e.2, rest)
    else
      let e := ulcd_error ulcd ERRUNKNOWN (some ("Device sent unknown reply instead of ACK"))
      some (e.1, e.2, rest)

/-- `ulcd_send_recv_ack`: `if (ulcd_send(...)) return ulcd->error;
if (ulcd_recv_ack(...)) return ulcd->error; return ERROK;`. -/
def ulcd_send_recv_ack (ulcd : Ulcd) (data : List Nat) (size : Nat)
    (wr : List WriteRet) (rds : List ReadEv) (g : Nat) :
    Option (Ulcd × Int × List ReadEv) :=
  match ulcd_send ulcd data size wr with
  | none => none
  | some (u1, c) =>
    if c ≠ 0 then some (u1, u1.error, rds)
    else
      match ulcd_recv_ack u1 rds g with
      | none => none
      | some (u2, c2, rest) =>
        if c2 ≠ 0 then some (u2, u2.error, rest)
        else some (u2, ERROK, rest)

/-- The `while (total < datasize)` loop of `ulcd_send_recv_ack_data`:
accumulate `read` results until `datasize` bytes were received.  The
comparison `bytes_read < 0` is between `size_t` values, exactly as in
the source.  Returns the handle, the code, the bytes written into the
caller's buffer and the unconsumed read oracle. -/
def recvDataLoop : List ReadEv → Nat → Nat → List Nat → Ulcd →
    Option (Ulcd × Int × List Nat × List ReadEv)
  | rds, datasize, total, buffer, ulcd =>
    if total < datasize then
      match rds with
      | [] => none
      | ev :: rest =>
        let bytes_read : Nat := intToSizeT ev.ret
        if bytes_read < 0 then
          let e := ulcd_error ulcd ev.errno
            (some ("Unable to read data from device: " ++ strerror ev.errno))
          some (e.1, e.2, buffer, rest)
        else
          recvDataLoop rest datasize ((total + bytes_read) % sizeTMod)
            (buffer ++ ev.bytes) ulcd
    else
      some (ulcd, ERROK, buffer, rds)

/-- `ulcd_send_recv_ack_data`: `if (ulcd_send_recv_ack(...)) return
ulcd->error;` then drain exactly `datasize` payload bytes. -/
def ulcd_send_recv_ack_data (ulcd : Ulcd) (data : List Nat) (size : Nat)
    (datasize : Nat) (wr : List WriteRet) (rds : List ReadEv) (g : Nat) :
    Option (Ulcd × Int × List Nat × List ReadEv) :=
  match ulcd_send_recv_ack ulcd data size wr rds g with
  | none => none
  | some (u1, c, rest) =>
    if c ≠ 0 then some (u1, u1.error, [], rest)
    else recvDataLoop rest datasize 0 [] u1

/-- `ulcd_send_recv_ack_word`: run the exchange asking for 2 payload
bytes; on failure `return -1;`, otherwise unpack the word if the caller
passed a non-`NULL` destination (`wantParam`) and return `ERROK`. -/
def ulcd_send_recv_ack_word (ulcd : Ulcd) (data : List Nat) (size : Nat)
    (wr : List WriteRet) (rds : List ReadEv) (g : Nat) (wantParam : Bool) :
    Option (Ulcd × Int × Option Nat × List ReadEv) :=
  match ulcd_send_recv_ack_data ulcd data size 2 wr rds g with
  | none => none
  | some (u1, c, buffer, rest) =>
    if c ≠ 0 then some (u1, -1, none, rest)
    else if wantParam then some (u1, ERROK, some (unpack_uint buffer), rest)
    else some (u1, ERROK, none, rest)

/-- A well-formed schedule of `read` results delivering exactly `n`
bytes: each call returns at least one byte, never more than still
requested, and its return value equals the number of delivered bytes. -/
def goodChunksB : List ReadEv → Nat → Bool
  | _, 0 => true
  | [], _ + 1 => false
  | ev :: rest, n + 1 =>
    decide (ev.ret = (ev.bytes.length : Int)) && decide (1 ≤ ev.bytes.length) &&
      decide (ev.bytes.length ≤ n + 1) && goodChunksB rest (n + 1 - ev.bytes.length)

/-- The first `n` bytes delivered by a schedule of `read` results. -/
def chunksTake : List ReadEv → Nat → List Nat
  | _, 0 => []
  | [], _ + 1 => []
  | ev :: rest, n + 1 => ev.bytes ++ chunksTake rest (n + 1 - ev.bytes.length)

/-- The read events left over after a schedule delivered `n` bytes. -/
def chunksDrop : List ReadEv → Nat → List ReadEv
  | rds, 0 => rds
  | [], _ + 1 => []
  | ev :: rest, n + 1 => chunksDrop rest (n + 1 - ev.bytes.length)

/-- The closed error taxonomy of the spec: `OK`, `ERR_OPEN`, `ERR_IO`,
`ERR_NAK`, `ERR_UNKNOWN`, or a pass-through OS error code (positive). -/
def isTaxonomyCode (c : Int) : Prop :=
  c = ERROK ∨ c = ERROPEN ∨ c = ERRIO ∨ c = ERRNAK ∨ c = ERRUNKNOWN ∨ 0 < c

instance (c : Int) : Decidable (isTaxonomyCode c) := by
  unfold isTaxonomyCode
  infer_instance

theorem and_ff_eq_mod (v : Nat) : v &&& 0xff = v % 256 := by
  have h := Nat.and_pow_two_sub_one_eq_mod v 8
  norm_num at h
  exact h

theorem and_ff00_shift (v : Nat) : (v &&& 0xff00) >>> 8 = v / 256 % 256 := by
  apply Nat.eq_of_testBit_eq
  intro i
  have h00 : (0xff00 : Nat) = 2 ^ 8 * (2 ^ 8 - 1) := by norm_num
  have hdiv : v / 256 = v >>> 8 := by
    rw [Nat.shiftRight_eq_div_pow]
  have h256 : (256 : Nat) = 2 ^ 8 := by norm_num
  rw [Nat.testBit_shiftRight, Nat.testBit_and, h00, Nat.testBit_mul_pow_two,
    Nat.testBit_two_pow_sub_one, hdiv, h256, Nat.testBit_mod_two_pow,
    Nat.testBit_shiftRight]
  have : 8 + i - 8 = i := by omega
  rw [this]
  have hge : (8 : Nat) ≤ 8 + i := by omega
  simp only [ge_iff_le, hge, decide_eq_true_eq, Bool.true_and, decide_True]
  exact Bool.and_comm _ _

theorem mul256_lor_eq_add (b0 b1 : Nat) (h1 : b1 < 256) :
    b0 * 256 ||| b1 = b0 * 256 + b1 := by
  apply Nat.eq_of_testBit_eq
  intro i
  have hm : b0 * 256 = 2 ^ 8 * b0 := by ring
  have h1' : b1 < 2 ^ 8 := by norm_num; omega
  rw [Nat.testBit_lor, hm, Nat.testBit_mul_pow_two,
    Nat.testBit_mul_pow_two_add b0 h1' i]
  by_cases hi : i < 8
  · have : ¬ (i ≥ 8) := by omega
    simp [hi, this]
  · have hge : i ≥ 8 := by omega
    have hlt : b1 < 2 ^ i := by
      calc b1 < 2 ^ 8 := h1'
        _ ≤ 2 ^ i := Nat.pow_le_pow_right (by norm_num) hge
    simp [hi, hge, Nat.testBit_lt_two_pow hlt]

set_option maxRecDepth 4096 in
theorem char_shift_mask : ∀ b : Fin 256,
    ((ulcd_char_to_int b.val) <<< 8) % 4294967296 &&& 0xff00 = b.val * 256 := by
  decide

set_option maxRecDepth 4096 in
theorem char_and_ff : ∀ b : Fin 256,
    (ulcd_char_to_int b.val) &&& 0x00ff = b.val := by
  decide

theorem char_shift_mask_of_lt (b : Nat) (h : b < 256) :
    ((ulcd_char_to_int b) <<< 8) % 4294967296 &&& 0xff00 = b * 256 :=
  char_shift_mask ⟨b, h⟩

theorem char_and_ff_of_lt (b : Nat) (h : b < 256) :
    (ulcd_char_to_int b) &&& 0x00ff = b :=
  char_and_ff ⟨b, h⟩

/-- C7: for all 16-bit values `v`, `pack_uint` writes the most-significant
byte of `v` at offset 0 and the least-significant byte at offset 1
(big-endian wire order), and returns 2. -/
theorem pack_uint_big_endian : ∀ v : Fin 65536,
    (pack_uint v.val).1 = [v.val / 256, v.val % 256] ∧ (pack_uint v.val).2 = 2 := by
  intro v
  have hlt := v.isLt
  refine ⟨?_, rfl⟩
  show [((v.val &&& 0xff00) >>> 8) % 256, (v.val &&& 0x00ff) % 256] = _
  rw [and_ff00_shift, and_ff_eq_mod]
  have h1 : v.val / 256 % 256 % 256 = v.val / 256 := by omega
  have h2 : v.val % 256 % 256 = v.val % 256 := by omega
  rw [h1, h2]

/-- C3: for all 16-bit values `v`, unpacking the two bytes produced by
packing `v` yields `v` again: `unpack_uint (pack_uint v) = v`. -/
theorem pack_unpack_roundtrip : ∀ v : Fin 65536,
    unpack_uint (pack_uint v.val).1 = v.val := by
  intro v
  have hlt := v.isLt
  have hb0 : ((v.val &&& 0xff00) >>> 8) % 256 = v.val / 256 := by
    rw [and_ff00_shift]; omega
  have hb1 : (v.val &&& 0x00ff) % 256 = v.val % 256 := by
    rw [and_ff_eq_mod]; omega
  show unpack_uint [((v.val &&& 0xff00) >>> 8) % 256, (v.val &&& 0x00ff) % 256] = v.val
  rw [hb0, hb1]
  show ((((ulcd_char_to_int (v.val / 256)) <<< 8) % 4294967296 &&& 0xff00) |||
    ((ulcd_char_to_int (v.val % 256)) &&& 0x00ff)) % 65536 = v.val
  rw [char_shift_mask_of_lt (v.val / 256) (by omega)]
  rw [char_and_ff_of_lt (v.val % 256) (by omega)]
  rw [mul256_lor_eq_add _ _ (by omega)]
  omega

/-- C8: `pack_uints` writes the concatenation of `pack_uint` applied to
each parameter in order and returns `2 * count`; in particular
`pack_uints [a, b, c]` is `pack_uint a ++ pack_uint b ++ pack_uint c`. -/
theorem pack_uints_concat :
    ∀ (ps : List Nat) (a b c : Nat),
      pack_uints ps = ((ps.map (fun p => (pack_uint p).1)).flatten, 2 * (ps.length : Int)) ∧
      (pack_uints [a, b, c]).1 = (pack_uint a).1 ++ (pack_uint b).1 ++ (pack_uint c).1 := by
  intro ps a b c
  constructor
  · unfold pack_uints
    congr 1
    induction ps with
    | nil => rfl
    | cons p rest ih => simp only [pack_uints_go, List.map_cons, List.flatten_cons, ih]
  · simp [pack_uints, pack_uints_go, List.append_assoc]

theorem vsnprintf_small (s : String) (h : s.length ≤ STRBUFSIZE - 1) :
    vsnprintf_model s = s := by
  unfold vsnprintf_model
  ext1
  rw [String.data_take]
  exact List.take_of_length_le h

theorem intToSizeT_ofNat (n : Nat) (h : n < sizeTMod) : intToSizeT (n : Int) = n := by
  unfold intToSizeT
  unfold sizeTMod at h
  omega

theorem sendLoop_spec (wr : List WriteRet) : ∀ (size total : Nat) (u : Ulcd),
    sendLoop wr size total u = none ∨ sendLoop wr size total u = some (u, ERROK) := by
  induction wr with
  | nil =>
    intro size total u
    rw [sendLoop]
    by_cases h : total < size <;> simp [h]
  | cons w rest ih =>
    intro size total u
    rw [sendLoop]
    by_cases h : total < size
    · simpa [h] using ih size ((total + intToSizeT w.ret) % sizeTMod) u
    · simp [h]

theorem sendLoop_error (wr : List WriteRet) : ∀ (size total : Nat) (u u' : Ulcd) (c : Int),
    sendLoop wr size total u = some (u', c) → (u' = u ∧ c = ERROK) ∨ u'.error = c := by
  induction wr with
  | nil =>
    intro size total u u' c h
    rw [sendLoop] at h
    by_cases hc : total < size <;> simp [hc] at h
    exact Or.inl ⟨h.1.symm, h.2.symm⟩
  | cons w rest ih =>
    intro size total u u' c h
    rw [sendLoop] at h
    by_cases hc : total < size
    · simp only [hc, if_true] at h
      have hneg : ¬ (intToSizeT w.ret < 0) := by omega
      simp only [hneg, if_false] at h
      exact ih size _ u u' c h
    · simp [hc] at h
      exact Or.inl ⟨h.1.symm, h.2.symm⟩

theorem charVal_eq_ack (b : Nat) (h : b < 256) : charVal b = ACK ↔ b = 6 := by
  unfold charVal ACK
  split <;> omega

theorem charVal_eq_nak (b : Nat) (h : b < 256) : charVal b = NAK ↔ b = 21 := by
  unfold charVal NAK
  split <;> omega

theorem recv_ack_cases (u : Ulcd) (rds : List ReadEv) (g : Nat) (u2 : Ulcd)
    (c2 : Int) (rest : List ReadEv)
    (h : ulcd_recv_ack u rds g = some (u2, c2, rest)) :
    (u2 = u ∧ c2 = ERROK) ∨ ((c2 = ERRNAK ∨ c2 = ERRUNKNOWN) ∧ u2.error = c2) := by
  match rds with
  | [] => simp [ulcd_recv_ack] at h
  | ev :: rest' =>
    simp only [ulcd_recv_ack] at h
    split_ifs at h with hA hN <;> simp only [Option.some.injEq, Prod.mk.injEq] at h
    · exact Or.inl ⟨h.1.symm, h.2.1.symm⟩
    · refine Or.inr ⟨Or.inl h.2.1.symm, ?_⟩
      rw [← h.1, ← h.2.1]
      rfl
    · refine Or.inr ⟨Or.inr h.2.1.symm, ?_⟩
      rw [← h.1, ← h.2.1]
      rfl

theorem recvDataLoop_spec (rds : List ReadEv) :
    ∀ (datasize total : Nat) (buf : List Nat) (u : Ulcd),
    recvDataLoop rds datasize total buf u = none ∨
    ∃ buf' rds', recvDataLoop rds datasize total buf u = some (u, ERROK, buf', rds') := by
  induction rds with
  | nil =>
    intro datasize total buf u
    rw [recvDataLoop]
    by_cases h : total < datasize
    · left
      simp [h]
    · right
      exact ⟨buf, [], by simp [h]⟩
  | cons ev rest ih =>
    intro datasize total buf u
    rw [recvDataLoop]
    by_cases h : total < datasize
    · have hneg : ¬ (intToSizeT ev.ret < 0) := by omega
      simp only [h, if_true, hneg, if_false]
      exact ih datasize _ _ u
    · right
      exact ⟨buf, ev :: rest, by simp [h]⟩

theorem chunksTake_length (rds : List ReadEv) : ∀ k, goodChunksB rds k = true →
    (chunksTake rds k).length = k := by
  induction rds with
  | nil =>
    intro k hg
    cases k with
    | zero => rfl
    | succ k => simp [goodChunksB] at hg
  | cons ev rest ih =>
    intro k hg
    cases k with
    | zero => rfl
    | succ k =>
      simp only [goodChunksB, Bool.and_eq_true, decide_eq_true_eq] at hg
      obtain ⟨⟨⟨hret, h1⟩, hle⟩, hrest⟩ := hg
      simp only [chunksTake, List.length_append, ih _ hrest]
      omega

theorem recvDataLoop_good (rds : List ReadEv) : ∀ (k total : Nat) (buf : List Nat) (u : Ulcd),
    goodChunksB rds k = true → total + k < sizeTMod →
    recvDataLoop rds (total + k) total buf u =
      some (u, ERROK, buf ++ chunksTake rds k, chunksDrop rds k) := by
  induction rds with
  | nil =>
    intro k total buf u hg hlt
    cases k with
    | zero =>
      rw [recvDataLoop]
      simp [chunksTake, chunksDrop]
    | succ k => simp [goodChunksB] at hg
  | cons ev rest ih =>
    intro k total buf u hg hlt
    cases k with
    | zero =>
      rw [recvDataLoop]
      simp [chunksTake, chunksDrop]
    | succ k =>
      rw [recvDataLoop]
      simp only [goodChunksB, Bool.and_eq_true, decide_eq_true_eq] at hg
      obtain ⟨⟨⟨hret, hlen1⟩, hlenle⟩, hrest⟩ := hg
      have hcond : total < total + (k + 1) := by omega
      have hsent : intToSizeT ev.ret = ev.bytes.length := by
        rw [hret]
        exact intToSizeT_ofNat _ (by omega)
      have hneg : ¬ (intToSizeT ev.ret < 0) := by omega
      simp only [hcond, if_true, hneg, if_false, hsent]
      have hmod : (total + ev.bytes.length) % sizeTMod = total + ev.bytes.length :=
        Nat.mod_eq_of_lt (by omega)
      rw [hmod]
      have harith : total + (k + 1) =
          (total + ev.bytes.length) + (k + 1 - ev.bytes.length) := by omega
      rw [harith,
        ih (k + 1 - ev.bytes.length) (total + ev.bytes.length) (buf ++ ev.bytes) u hrest
          (by omega)]
      simp [chunksTake, chunksDrop, List.append_assoc]

theorem msg_nak_eq : vsnprintf_model ("Device sent NAK instead of ACK") =
    ("Device sent NAK instead of ACK") :=
  vsnprintf_small _ (by decide)

theorem msg_unknown_eq : vsnprintf_model ("Device sent unknown reply instead of ACK") =
    ("Device sent unknown reply instead of ACK") :=
  vsnprintf_small _ (by decide)

/-- C1 (amended): for every byte delivered by the one-byte acknowledgment
read, `ulcd_recv_ack` exhibits exactly the trichotomy: `0x06` returns
`ERROK`; `0x15` returns `ERRNAK` recording the message
"Device sent NAK instead of ACK"; any other byte returns `ERRUNKNOWN`
recording "Device sent unknown reply instead of ACK" (the messages start
with a capital D, unlike the claim's quotation). -/
theorem recv_ack_trichotomy :
    ∀ (u : Ulcd) (rest : List ReadEv) (g : Nat) (ret errnoV : Int) (b : Fin 256),
      (b.val = 0x06 →
        ulcd_recv_ack u (⟨ret, errnoV, [b.val]⟩ :: rest) g = some (u, ERROK, rest)) ∧
      (b.val = 0x15 →
        ulcd_recv_ack u (⟨ret, errnoV, [b.val]⟩ :: rest) g =
          some ({ u with error := ERRNAK, err := ("Device sent NAK instead of ACK") },
            ERRNAK, rest)) ∧
      (b.val ≠ 0x06 → b.val ≠ 0x15 →
        ulcd_recv_ack u (⟨ret, errnoV, [b.val]⟩ :: rest) g =
          some ({ u with error := ERRUNKNOWN, err := ("Device sent unknown reply instead of ACK") },
            ERRUNKNOWN, rest)) := by
  intro u rest g ret errnoV b
  have hb := b.isLt
  have hmod : b.val % 256 = b.val := Nat.mod_eq_of_lt hb
  refine ⟨?_, ?_, ?_⟩
  · intro h6
    simp only [ulcd_recv_ack, List.headD_cons, hmod]
    rw [if_pos ((charVal_eq_ack b.val hb).mpr h6)]
  · intro h21
    have hA : ¬ charVal b.val = ACK := by
      rw [charVal_eq_ack b.val hb]
      omega
    have hN : charVal b.val = NAK := (charVal_eq_nak b.val hb).mpr h21
    simp only [ulcd_recv_ack, List.headD_cons, hmod]
    rw [if_neg hA, if_pos hN]
    simp [ulcd_error, msg_nak_eq]
  · intro h6 h21
    have hA : ¬ charVal b.val = ACK := by
      rw [charVal_eq_ack b.val hb]
      exact h6
    have hN : ¬ charVal b.val = NAK := by
      rw [charVal_eq_nak b.val hb]
      exact h21
    simp only [ulcd_recv_ack, List.headD_cons, hmod]
    rw [if_neg hA, if_neg hN]
    simp [ulcd_error, msg_unknown_eq]

/-- Witness for C1: the trichotomy evaluated at the concrete reply bytes
`0x06`, `0x15` and `0x42`. -/
theorem recv_ack_trichotomy_witness :
    (ulcd_recv_ack ulcd_new [⟨1, 0, [0x06]⟩] 0 = some (ulcd_new, ERROK, [])) ∧
    (ulcd_recv_ack ulcd_new [⟨1, 0, [0x15]⟩] 0 =
      some ({ ulcd_new with error := ERRNAK, err := ("Device sent NAK instead of ACK") },
        ERRNAK, [])) ∧
    (ulcd_recv_ack ulcd_new [⟨1, 0, [0x42]⟩] 0 =
      some ({ ulcd_new with error := ERRUNKNOWN, err := ("Device sent unknown reply instead of ACK") },
        ERRUNKNOWN, [])) :=
  ⟨(recv_ack_trichotomy ulcd_new [] 0 1 0 ⟨0x06, by decide⟩).1 rfl,
   (recv_ack_trichotomy ulcd_new [] 0 1 0 ⟨0x15, by decide⟩).2.1 rfl,
   (recv_ack_trichotomy ulcd_new [] 0 1 0 ⟨0x42, by decide⟩).2.2 (by decide) (by decide)⟩

set_option maxRecDepth 16384 in
/-- C1 counterexample: on reply byte `0x15` the recorded message is
"Device sent NAK instead of ACK" (capital D), not the claim's
"device sent NAK instead of ACK". -/
theorem recv_ack_message_not_lowercase :
    (ulcd_recv_ack ulcd_new [⟨1, 0, [0x15]⟩] 0).map (fun r => r.1.err) =
      some ("Device sent NAK instead of ACK") ∧
    (ulcd_recv_ack ulcd_new [⟨1, 0, [0x15]⟩] 0).map (fun r => r.1.err) ≠
      some ("device sent NAK instead of ACK") := by
  constructor
  · decide
  · decide

/-- C2 (code-bug exhibit): `sent` is a `size_t`, so the guard `sent < 0`
never fires.  A `write` that fails with return value `-1` (errno 5)
wraps `total` past `size`, and `ulcd_send` returns `ERROK` with the
handle untouched instead of stopping with an I/O error. -/
theorem send_error_branch_unreachable :
    ulcd_send ulcd_new [0] 1 [⟨-1, 5⟩] = some (ulcd_new, ERROK) ∧
    ulcd_send ulcd_new [0, 0, 0] 3 [⟨-1, 5⟩] = some (ulcd_new, ERROK) := by
  constructor
  · decide
  · decide

/-- C9: `ulcd_error` records the code on the handle and returns it; a
null message clears the stored message; a present message is stored
truncated to the `STRBUFSIZE` bound; the stored fields depend only on
the arguments, never on the handle's previous error state. -/
theorem ulcd_error_records :
    ∀ (u u' : Ulcd) (code : Int) (msg : Option String),
      ((ulcd_error u code msg).1.error = code) ∧
      ((ulcd_error u code msg).2 = code) ∧
      (msg = none → (ulcd_error u code msg).1.err = "") ∧
      (∀ s, msg = some s → (ulcd_error u code msg).1.err = s.take (STRBUFSIZE - 1)) ∧
      ((ulcd_error u' code msg).1.error = (ulcd_error u code msg).1.error ∧
        (ulcd_error u' code msg).1.err = (ulcd_error u code msg).1.err) := by
  intro u u' code msg
  cases msg <;> simp [ulcd_error, vsnprintf_model]

/-- Witness for C9: concrete runs of `ulcd_error` with and without a
message, starting from a handle that already holds an older error. -/
theorem ulcd_error_records_witness :
    ((ulcd_error { ulcd_new with error := 9, err := ("old") } 7 (some ("boom"))).1.error
      = 7) ∧
    ((ulcd_error { ulcd_new with error := 9, err := ("old") } 7 (some ("boom"))).1.err
      = ("boom").take (STRBUFSIZE - 1)) ∧
    ((ulcd_error { ulcd_new with error := 9, err := ("old") } 7 none).1.err = "") :=
  ⟨(ulcd_error_records { ulcd_new with error := 9, err := ("old") } ulcd_new 7
      (some ("boom"))).1,
   (ulcd_error_records { ulcd_new with error := 9, err := ("old") } ulcd_new 7
      (some ("boom"))).2.2.2.1 ("boom") rfl,
   (ulcd_error_records { ulcd_new with error := 9, err := ("old") } ulcd_new 7
      none).2.2.1 rfl⟩

/-- C10: `ulcd_recv_ack` never examines the result of the one-byte read:
whatever the read returned (error or no byte delivered), it produces one
of `ERROK`, `ERRNAK`, `ERRUNKNOWN` from whatever value sits in the reply
buffer, and its outcome is unchanged when only the read's return value
and errno differ. -/
theorem recv_ack_ignores_read_result :
    ∀ (u : Ulcd) (ev ev' : ReadEv) (rest : List ReadEv) (g : Nat),
      (∃ u2 c2, ulcd_recv_ack u (ev :: rest) g = some (u2, c2, rest) ∧
        (c2 = ERROK ∨ c2 = ERRNAK ∨ c2 = ERRUNKNOWN)) ∧
      (ev.bytes = ev'.bytes →
        ulcd_recv_ack u (ev :: rest) g = ulcd_recv_ack u (ev' :: rest) g) := by
  intro u ev ev' rest g
  constructor
  · simp only [ulcd_recv_ack]
    split_ifs with hA hN
    · exact ⟨u, ERROK, rfl, Or.inl rfl⟩
    · exact ⟨_, ERRNAK, rfl, Or.inr (Or.inl rfl)⟩
    · exact ⟨_, ERRUNKNOWN, rfl, Or.inr (Or.inr rfl)⟩
  · intro hb
    simp only [ulcd_recv_ack, hb]

/-- Witness for C10: a read that fails with `-1` (delivering nothing) is
handled identically to a read that returns without delivering a byte. -/
theorem recv_ack_ignores_read_result_witness :
    ulcd_recv_ack ulcd_new [⟨-1, 5, []⟩] 66 = ulcd_recv_ack ulcd_new [⟨1, 0, []⟩] 66 :=
  (recv_ack_ignores_read_result ulcd_new ⟨-1, 5, []⟩ ⟨1, 0, []⟩ [] 66).2 rfl

/-- C5: `ulcd_send_recv_ack` composes `ulcd_send` then `ulcd_recv_ack`.
If the send step does not return `ERROK`, `ulcd_recv_ack` is never
invoked (the read oracle is returned untouched) and the send step's
error is surfaced unchanged; if it returns `ERROK`, the result is
exactly the result of `ulcd_recv_ack`. -/
theorem send_recv_ack_short_circuit :
    ∀ (u : Ulcd) (data : List Nat) (size : Nat) (wr : List WriteRet)
      (rds : List ReadEv) (g : Nat),
      (ulcd_send u data size wr = none →
        ulcd_send_recv_ack u data size wr rds g = none) ∧
      (∀ u1 c, ulcd_send u data size wr = some (u1, c) → c ≠ ERROK →
        ulcd_send_recv_ack u data size wr rds g = some (u1, c, rds)) ∧
      (∀ u1, ulcd_send u data size wr = some (u1, ERROK) →
        ulcd_send_recv_ack u data size wr rds g = ulcd_recv_ack u1 rds g) := by
  intro u data size wr rds g
  refine ⟨?_, ?_, ?_⟩
  · intro h
    simp only [ulcd_send_recv_ack, h]
  · intro u1 c hsend hc
    have hsend' : sendLoop wr size 0 u = some (u1, c) := hsend
    have herr : u1.error = c := by
      rcases sendLoop_error wr size 0 u u1 c hsend' with ⟨_, hc0⟩ | h
      · exact absurd hc0 hc
      · exact h
    have hne : c ≠ 0 := hc
    simp only [ulcd_send_recv_ack, hsend]
    rw [if_pos hne, herr]
  · intro u1 hsend
    simp only [ulcd_send_recv_ack, hsend]
    have h0 : ¬ ((ERROK : Int) ≠ 0) := by simp [ERROK]
    rw [if_neg h0]
    rcases hr : ulcd_recv_ack u1 rds g with _ | ⟨u2, c2, rest⟩
    · simp [hr]
    · rcases recv_ack_cases u1 rds g u2 c2 rest hr with ⟨hu, hc⟩ | ⟨hc, herr⟩
      · subst hc
        simp [hr, ERROK]
      · have hne : c2 ≠ 0 := by
          rcases hc with h | h <;> rw [h] <;> decide
        simp [hr, hne, herr]

/-- Witness for C5: with a write oracle that sends both bytes at once
and an ACK reply queued, the composed exchange equals the plain
`ulcd_recv_ack` run. -/
theorem send_recv_ack_short_circuit_witness :
    ulcd_send_recv_ack ulcd_new [1, 2] 2 [⟨2, 0⟩] [⟨1, 0, [6]⟩] 0 =
      ulcd_recv_ack ulcd_new [⟨1, 0, [6]⟩] 0 :=
  (send_recv_ack_short_circuit ulcd_new [1, 2] 2 [⟨2, 0⟩] [⟨1, 0, [6]⟩] 0).2.2
    ulcd_new (by decide)

/-- C6: `ulcd_send_recv_ack_data` reads payload bytes only after the
command/ack exchange succeeded, and then drains exactly `datasize`
bytes, accumulating across however many partial reads the transport
delivers. -/
theorem send_recv_ack_data_drain :
    ∀ (u : Ulcd) (data : List Nat) (size datasize : Nat) (wr : List WriteRet)
      (rds : List ReadEv) (g : Nat),
      (∀ u1 c rest, ulcd_send_recv_ack u data size wr rds g = some (u1, c, rest) →
        c ≠ ERROK →
        ulcd_send_recv_ack_data u data size datasize wr rds g =
          some (u1, u1.error, [], rest)) ∧
      (∀ u1 rest, ulcd_send_recv_ack u data size wr rds g = some (u1, ERROK, rest) →
        goodChunksB rest datasize = true → datasize < sizeTMod →
        ulcd_send_recv_ack_data u data size datasize wr rds g =
          some (u1, ERROK, chunksTake rest datasize, chunksDrop rest datasize) ∧
        (chunksTake rest datasize).length = datasize) := by
  intro u data size datasize wr rds g
  constructor
  · intro u1 c rest hx hc
    have hne : c ≠ 0 := hc
    simp only [ulcd_send_recv_ack_data, hx]
    rw [if_pos hne]
  · intro u1 rest hx hgood hlt
    simp only [ulcd_send_recv_ack_data, hx]
    have h0 : ¬ ((ERROK : Int) ≠ 0) := by simp [ERROK]
    rw [if_neg h0]
    refine ⟨?_, chunksTake_length rest datasize hgood⟩
    have hgd := recvDataLoop_good rest datasize 0 [] u1 hgood (by omega)
    simpa using hgd

/-- Witness for C6: a 4-byte payload delivered in partial reads of
sizes 1, 2, 1 is drained completely. -/
theorem send_recv_ack_data_drain_witness :
    ulcd_send_recv_ack_data ulcd_new [1, 2] 2 4 [⟨2, 0⟩]
      [⟨1, 0, [6]⟩, ⟨1, 0, [10]⟩, ⟨2, 0, [20, 30]⟩, ⟨1, 0, [40]⟩] 0 =
      some (ulcd_new, ERROK, [10, 20, 30, 40], []) := by
  have h := (send_recv_ack_data_drain ulcd_new [1, 2] 2 4 [⟨2, 0⟩]
    [⟨1, 0, [6]⟩, ⟨1, 0, [10]⟩, ⟨2, 0, [20, 30]⟩, ⟨1, 0, [40]⟩] 0).2 ulcd_new
    [⟨1, 0, [10]⟩, ⟨2, 0, [20, 30]⟩, ⟨1, 0, [40]⟩] (by decide) (by decide) (by decide)
  rw [h.1]
  decide

theorem send_recv_ack_cases (u : Ulcd) (data : List Nat) (size : Nat)
    (wr : List WriteRet) (rds : List ReadEv) (g : Nat) (u1 : Ulcd) (c : Int)
    (rest : List ReadEv)
    (h : ulcd_send_recv_ack u data size wr rds g = some (u1, c, rest)) :
    c = ERROK ∨ ((c = ERRNAK ∨ c = ERRUNKNOWN) ∧ u1.error = c) := by
  rcases sendLoop_spec wr size 0 u with h0 | h0
  · have hs : ulcd_send u data size wr = none := h0
    simp [ulcd_send_recv_ack, hs] at h
  · have hs : ulcd_send u data size wr = some (u, ERROK) := h0
    simp only [ulcd_send_recv_ack, hs] at h
    have hne : ¬ ((ERROK : Int) ≠ 0) := by simp [ERROK]
    rw [if_neg hne] at h
    rcases hr : ulcd_recv_ack u rds g with _ | ⟨u2, c2, r2⟩
    · simp [hr] at h
    · simp only [hr] at h
      rcases recv_ack_cases u rds g u2 c2 r2 hr with ⟨hu, hc⟩ | ⟨hc, herr⟩
      · subst hc
        rw [if_neg hne] at h
        simp only [Option.some.injEq, Prod.mk.injEq] at h
        exact Or.inl h.2.1.symm
      · have hne2 : c2 ≠ 0 := by
          rcases hc with hx | hx <;> rw [hx] <;> decide
        rw [if_pos hne2] at h
        simp only [Option.some.injEq, Prod.mk.injEq] at h
        refine Or.inr ?_
        rw [← h.1, ← h.2.1, herr]
        exact ⟨hc, rfl⟩

theorem send_recv_ack_data_cases (u : Ulcd) (data : List Nat) (size datasize : Nat)
    (wr : List WriteRet) (rds : List ReadEv) (g : Nat) (u1 : Ulcd) (c : Int)
    (buf : List Nat) (rest : List ReadEv)
    (h : ulcd_send_recv_ack_data u data size datasize wr rds g =
      some (u1, c, buf, rest)) :
    c = ERROK ∨ ((c = ERRNAK ∨ c = ERRUNKNOWN) ∧ u1.error = c) := by
  rcases hx : ulcd_send_recv_ack u data size wr rds g with _ | ⟨ux, cx, rx⟩
  · simp [ulcd_send_recv_ack_data, hx] at h
  · simp only [ulcd_send_recv_ack_data, hx] at h
    rcases send_recv_ack_cases u data size wr rds g ux cx rx hx with hcx | ⟨hcx, herrx⟩
    · subst hcx
      rw [if_neg (by simp [ERROK] : ¬ ((ERROK : Int) ≠ 0))] at h
      rcases recvDataLoop_spec rx datasize 0 [] ux with h0 | ⟨buf', rds', h0⟩
      · rw [h0] at h
        simp at h
      · rw [h0] at h
        simp only [Option.some.injEq, Prod.mk.injEq] at h
        exact Or.inl h.2.1.symm
    · have hne : cx ≠ 0 := by
        rcases hcx with hx2 | hx2 <;> rw [hx2] <;> decide
      rw [if_pos hne] at h
      simp only [Option.some.injEq, Prod.mk.injEq] at h
      refine Or.inr ?_
      rw [← h.1, ← h.2.1, herrx]
      exact ⟨hcx, rfl⟩

/-- C4 (amended): every fallible operation other than
`ulcd_send_recv_ack_word` returns a code from the closed taxonomy
(`ERROK`, `ERR_OPEN`, `ERR_IO`, `ERR_NAK`, `ERR_UNKNOWN`, or a positive
pass-through OS error code) and, on failure, stores that same code on
the handle; `ulcd_send_recv_ack_word` stores the taxonomy code on the
handle but returns the sentinel `-1`, outside the taxonomy, on
failure. -/
theorem error_codes_closed_taxonomy :
    ∀ (u : Ulcd) (openRet errnoV : Int) (data : List Nat) (size datasize : Nat)
      (wr : List WriteRet) (rds : List ReadEv) (g : Nat) (wantParam : Bool),
      (0 < errnoV →
        isTaxonomyCode (ulcd_open_serial_device u openRet errnoV).2 ∧
        ((ulcd_open_serial_device u openRet errnoV).2 ≠ ERROK →
          (ulcd_open_serial_device u openRet errnoV).1.error =
            (ulcd_open_serial_device u openRet errnoV).2)) ∧
      (∀ u1 c, ulcd_send u data size wr = some (u1, c) → isTaxonomyCode c) ∧
      (∀ u2 c2 rest, ulcd_recv_ack u rds g = some (u2, c2, rest) →
        isTaxonomyCode c2 ∧ (c2 ≠ ERROK → u2.error = c2)) ∧
      (∀ u1 c rest, ulcd_send_recv_ack u data size wr rds g = some (u1, c, rest) →
        isTaxonomyCode c ∧ (c ≠ ERROK → u1.error = c)) ∧
      (∀ u1 c buf rest, ulcd_send_recv_ack_data u data size datasize wr rds g =
          some (u1, c, buf, rest) →
        isTaxonomyCode c ∧ (c ≠ ERROK → u1.error = c)) ∧
      (∀ u1 c p rest, ulcd_send_recv_ack_word u data size wr rds g wantParam =
          some (u1, c, p, rest) →
        c = ERROK ∨ (c = -1 ∧ isTaxonomyCode u1.error ∧ u1.error ≠ ERROK)) := by
  intro u openRet errnoV data size datasize wr rds g wantParam
  refine ⟨?_, ?_, ?_, ?_, ?_, ?_⟩
  · intro hpos
    by_cases hfd : openRet = (-1 : Int)
    · subst hfd
      have h2 : (ulcd_open_serial_device u (-1) errnoV).2 = errnoV := by
        simp [ulcd_open_serial_device, ulcd_error]
      have h1 : (ulcd_open_serial_device u (-1) errnoV).1.error = errnoV := by
        simp [ulcd_open_serial_device, ulcd_error]
      rw [h1, h2]
      refine ⟨?_, fun _ => rfl⟩
      unfold isTaxonomyCode
      simp only [ERROK, ERROPEN, ERRIO, ERRNAK, ERRUNKNOWN]
      omega
    · have h2 : (ulcd_open_serial_device u openRet errnoV).2 = ERROK := by
        simp [ulcd_open_serial_device, hfd]
      rw [h2]
      exact ⟨Or.inl rfl, fun hne => absurd rfl hne⟩
  · intro u1 c h
    have h' : sendLoop wr size 0 u = some (u1, c) := h
    rcases sendLoop_spec wr size 0 u with h0 | h0
    · rw [h0] at h'
      exact absurd h' (by simp)
    · rw [h0] at h'
      simp only [Option.some.injEq, Prod.mk.injEq] at h'
      rw [← h'.2]
      exact Or.inl rfl
  · intro u2 c2 rest h
    rcases recv_ack_cases u rds g u2 c2 rest h with ⟨hu, hc⟩ | ⟨hc, herr⟩
    · subst hc
      exact ⟨Or.inl rfl, fun hne => absurd rfl hne⟩
    · refine ⟨?_, fun _ => herr⟩
      rcases hc with h3 | h3 <;> rw [h3] <;> decide
  · intro u1 c rest h
    rcases send_recv_ack_cases u data size wr rds g u1 c rest h with hc | ⟨hc, herr⟩
    · subst hc
      exact ⟨Or.inl rfl, fun hne => absurd rfl hne⟩
    · refine ⟨?_, fun _ => herr⟩
      rcases hc with h3 | h3 <;> rw [h3] <;> decide
  · intro u1 c buf rest h
    rcases send_recv_ack_data_cases u data size datasize wr rds g u1 c buf rest h with
      hc | ⟨hc, herr⟩
    · subst hc
      exact ⟨Or.inl rfl, fun hne => absurd rfl hne⟩
    · refine ⟨?_, fun _ => herr⟩
      rcases hc with h3 | h3 <;> rw [h3] <;> decide
  · intro u1 c p rest h
    rcases hd : ulcd_send_recv_ack_data u data size 2 wr rds g with _ | ⟨ud, cd, bufd, rd⟩
    · simp [ulcd_send_recv_ack_word, hd] at h
    · simp only [ulcd_send_recv_ack_word, hd] at h
      by_cases hcd : cd ≠ 0
      · rw [if_pos hcd] at h
        simp only [Option.some.injEq, Prod.mk.injEq] at h
        rcases send_recv_ack_data_cases u data size 2 wr rds g ud cd bufd rd hd with
          hok | ⟨hcs, herr⟩
        · exact absurd hok hcd
        · right
          refine ⟨h.2.1.symm, ?_, ?_⟩
          · rw [← h.1, herr]
            rcases hcs with h3 | h3 <;> rw [h3] <;> decide
          · rw [← h.1, herr]
            rcases hcs with h3 | h3 <;> rw [h3] <;> decide
      · rw [if_neg hcd] at h
        by_cases hw : wantParam
        · rw [if_pos hw] at h
          simp only [Option.some.injEq, Prod.mk.injEq] at h
          exact Or.inl h.2.1.symm
        · rw [if_neg hw] at h
          simp only [Option.some.injEq, Prod.mk.injEq] at h
          exact Or.inl h.2.1.symm

set_option maxRecDepth 16384 in
/-- C4 counterexample: after a NAK reply, `ulcd_send_recv_ack_word`
returns the literal `-1`, which is not a code of the closed taxonomy
(`-1` is none of the named codes and is not a positive OS errno). -/
theorem word_returns_code_outside_taxonomy :
    (ulcd_send_recv_ack_word ulcd_new [1, 2] 2 [⟨2, 0⟩] [⟨1, 0, [0x15]⟩] 0 false).map
      (fun r => r.2.1) = some (-1) ∧
    ¬ isTaxonomyCode (-1) := by
  refine ⟨?_, ?_⟩
  · decide
  · decide

set_option maxRecDepth 16384 in
/-- Witness for C4 (amended): the open-failure code (a positive errno)
is in the taxonomy, and so is the code `ulcd_recv_ack` produces for a
NAK reply. -/
theorem error_codes_closed_taxonomy_witness :
    isTaxonomyCode (ulcd_open_serial_device ulcd_new (-1) 13).2 ∧
    isTaxonomyCode ERRNAK :=
  ⟨((error_codes_closed_taxonomy ulcd_new (-1) 13 [1, 2] 2 4 [⟨2, 0⟩]
      [⟨1, 0, [0x15]⟩] 0 false).1 (by decide)).1,
   ((error_codes_closed_taxonomy ulcd_new (-1) 13 [1, 2] 2 4 [⟨2, 0⟩]
      [⟨1, 0, [0x15]⟩] 0 false).2.2.1
      { ulcd_new with error := ERRNAK, err := ("Device sent NAK instead of ACK") }
      ERRNAK [] (by decide)).1⟩
